import Mathlib

/-!
Verification of the timeline arrangement model of a browser-based video
editor.  The definitions below are shallow embeddings of the TypeScript
source: frame counts are integers (`ℤ`), scales and positions are exact
rationals (`ℚ`, standing for the IEEE doubles of the source), optional
record fields are `Option`s, and every stateful React update is modelled
as a pure function from the previous `Track` list to the next one.
-/

namespace Remotion

/-- Clip media kind, from `src/src/remotion/types/timeline.ts`
(`ClipType = "image" | "video" | "text" | "audio"`). -/
inductive ClipType where
  | image
  | video
  | text
  | audio
deriving DecidableEq, Repr

/-- A clip, from `src/src/remotion/types/timeline.ts` together with the
`x`/`y` position fields used by the `ClipResizeOverlay` revision in
`src/unnamed/part_002` (`selectedClip?.x ?? 0`, `selectedClip?.y ?? 0`).
Optional TypeScript fields become `Option`s. -/
structure Clip where
  id : String
  type : ClipType
  src : Option String := none
  text : Option String := none
  startFrame : Option ℤ := none
  durationInFrames : ℤ
  name : Option String := none
  scaleX : Option ℚ := none
  scaleY : Option ℚ := none
  x : Option ℚ := none
  y : Option ℚ := none
deriving DecidableEq, Repr

/-- A track, from `src/src/remotion/types/timeline.ts`. -/
structure Track where
  id : String
  clips : List Clip
  name : Option String := none
  type : Option ClipType := none
deriving DecidableEq, Repr

/-- The reduce in `recalculateStartFrames`
(`clips.slice(0, index).reduce((sum, c) => sum + (c.durationInFrames || 0), 0)`,
`src/src/editor/EditorPage.tsx` lines 103-105; `c.durationInFrames || 0` is
the identity on integers). -/
def sumDurations (clips : List Clip) : ℤ :=
  clips.foldl (fun sum c => sum + c.durationInFrames) 0

/-- The compaction routine `recalculateStartFrames` of
`src/src/editor/EditorPage.tsx` lines 98-112: each clip keeps all of its
fields and gets `startFrame` overwritten with the cumulative duration of
the clips before it in sequence order (`0` for index `0`). -/
def recalculateStartFrames (clips : List Clip) : List Clip :=
  clips.mapIdx (fun index c =>
    let startFrame : ℤ :=
      if index = 0 then 0 else sumDurations (clips.take index)
    { c with startFrame := some startFrame })

/-- The compaction invariant of spec section 8: the first clip starts at
frame 0 and every later clip starts at the sum of the durations of the
clips before it in sequence order. -/
def compacted (clips : List Clip) : Prop :=
  ∀ i : ℕ, ∀ h : i < clips.length,
    (clips.get ⟨i, h⟩).startFrame = some (sumDurations (clips.take i))

instance (clips : List Clip) : Decidable (compacted clips) := by
  unfold compacted
  infer_instance

theorem sumDurations_nil : sumDurations [] = 0 := rfl

theorem foldl_add_shift (l : List Clip) (a : ℤ) :
    l.foldl (fun sum c => sum + c.durationInFrames) a
      = a + sumDurations l := by
  induction l generalizing a with
  | nil => simp [sumDurations]
  | cons c cs ih =>
      simp only [List.foldl_cons, sumDurations]
      rw [ih (a + c.durationInFrames), ih (0 + c.durationInFrames)]
      ring

theorem sumDurations_cons (c : Clip) (cs : List Clip) :
    sumDurations (c :: cs) = c.durationInFrames + sumDurations cs := by
  simpa [sumDurations] using foldl_add_shift cs c.durationInFrames

/-- The duration sum only reads the `durationInFrames` fields. -/
theorem sumDurations_congr (l₁ l₂ : List Clip)
    (h : l₁.map Clip.durationInFrames = l₂.map Clip.durationInFrames) :
    sumDurations l₁ = sumDurations l₂ := by
  induction l₁ generalizing l₂ with
  | nil => cases l₂ <;> simp_all [sumDurations]
  | cons c cs ih =>
      cases l₂ with
      | nil => simp at h
      | cons d ds =>
          simp only [List.map_cons, List.cons.injEq] at h
          rw [sumDurations_cons, sumDurations_cons, h.1, ih ds h.2]

theorem length_recalculateStartFrames (clips : List Clip) :
    (recalculateStartFrames clips).length = clips.length := by
  simp [recalculateStartFrames]

theorem getElem_recalculateStartFrames (clips : List Clip) (i : ℕ)
    (h : i < clips.length) (h' : i < (recalculateStartFrames clips).length) :
    (recalculateStartFrames clips).get ⟨i, h'⟩
      = { clips.get ⟨i, h⟩ with
          startFrame :=
            some (if i = 0 then 0 else sumDurations (clips.take i)) } := by
  simp [recalculateStartFrames, List.getElem_mapIdx]

theorem map_durations_recalculateStartFrames (clips : List Clip) :
    (recalculateStartFrames clips).map Clip.durationInFrames
      = clips.map Clip.durationInFrames := by
  apply List.ext_getElem
  · simp [recalculateStartFrames]
  · intro i h1 h2
    simp only [List.getElem_map]
    have hlen : i < (recalculateStartFrames clips).length := by
      simpa [length_recalculateStartFrames] using
        (by simpa using h2 : i < clips.length)
    have := getElem_recalculateStartFrames clips i (by simpa using h2) hlen
    simp only [List.get_eq_getElem] at this
    rw [this]

/-- Core engine lemma: the output of `recalculateStartFrames` satisfies the
compaction invariant. -/
theorem compacted_recalculateStartFrames (clips : List Clip) :
    compacted (recalculateStartFrames clips) := by
  intro i h
  have hi : i < clips.length := by
    simpa [length_recalculateStartFrames] using h
  have hget := getElem_recalculateStartFrames clips i hi h
  rw [hget]
  have htake : sumDurations ((recalculateStartFrames clips).take i)
      = sumDurations (clips.take i) := by
    apply sumDurations_congr
    rw [List.map_take, List.map_take, map_durations_recalculateStartFrames]
  rw [htake]
  by_cases h0 : i = 0
  · subst h0; simp [sumDurations]
  · simp [h0]

/-- Image clips match "video"-typed tracks; all other clip types match a
track of their own type (`const clipTypeForMatching = clip.type === "image"
? "video" : clip.type`, `src/src/editor/EditorPage.tsx` lines 142, 395). -/
def clipTypeForMatching : ClipType → ClipType
  | ClipType.image => ClipType.video
  | t => t

/-- The compatibility predicate `isClipCompatibleWithTrack` of
`src/src/editor/Timeline.tsx` lines 193-217. -/
def isClipCompatibleWithTrack (clipType : ClipType)
    (trackType : Option ClipType) : Bool :=
  match trackType with
  | none => false
  | some tt =>
      match clipType with
      | ClipType.image => decide (tt = ClipType.video)
      | ClipType.video => decide (tt = ClipType.video)
      | ClipType.audio => decide (tt = ClipType.audio)
      | ClipType.text => decide (tt = ClipType.text)

/-- The timeline instance made from a library clip
(`src/src/editor/EditorPage.tsx` lines 119-123): same fields, fresh id,
`startFrame := clip.startFrame ?? 0`. -/
def clipToAdd (newId : String) (clip : Clip) : Clip :=
  { clip with id := newId, startFrame := some (clip.startFrame.getD 0) }

/-- Display name of the track type created for an unmatched clip
(`trackType.charAt(0).toUpperCase() + trackType.slice(1)`). -/
def capitalizedTypeName : ClipType → String
  | ClipType.image => "Image"
  | ClipType.video => "Video"
  | ClipType.text => "Text"
  | ClipType.audio => "Audio"

/-- Insertion from the library, `addClipToTimeline` of
`src/src/editor/EditorPage.tsx` lines 115-168.  The two
`crypto.randomUUID()` calls are the `newId`/`newTrackId` parameters.  With
an explicit `trackId` the clip is appended to that track and the track is
recompacted; otherwise the first track whose type matches is used, and a
new track is created when none matches. -/
def addClipToTimeline (newId newTrackId : String) (clip : Clip)
    (trackId : Option String) (tracks : List Track) : List Track :=
  let c := clipToAdd newId clip
  match trackId with
  | some tid =>
      tracks.map (fun t =>
        if t.id = tid then
          { t with clips := recalculateStartFrames (t.clips ++ [c]) }
        else t)
  | none =>
      let m := clipTypeForMatching clip.type
      match tracks.find? (fun t => t.type = some m) with
      | some matchingTrack =>
          tracks.map (fun t =>
            if t.id = matchingTrack.id then
              { t with clips := recalculateStartFrames (t.clips ++ [c]) }
            else t)
      | none =>
          let count := (tracks.filter (fun t => t.type = some m)).length
          tracks ++ [{ id := newTrackId, clips := [c],
                       name := some (capitalizedTypeName m ++ " "
                         ++ toString (count + 1)),
                       type := some m }]

/-- The `arrayMove` helper of `@dnd-kit/sortable`: remove the element at
`fromIndex` and re-insert it at `toIndex`. -/
def arrayMove (l : List Clip) (fromIndex toIndex : ℕ) : List Clip :=
  match l.get? fromIndex with
  | none => l
  | some x => (l.eraseIdx fromIndex).insertIdx toIndex x

/-- Reordering within a track, the same-track branch of `handleDragEnd`
(`src/src/editor/EditorPage.tsx` lines 361-389): `arrayMove` then
recompaction. -/
def reorderClipsInTrack (sourceTrackId : String) (oldIndex newIndex : ℕ)
    (tracks : List Track) : List Track :=
  tracks.map (fun track =>
    if track.id = sourceTrackId then
      { track with
        clips := recalculateStartFrames (arrayMove track.clips oldIndex newIndex) }
    else track)

/-- Modelled from the spec: the clip-delete handler itself is not among the
source files (only the `onDeleteClip` prop plumbing in
`PlaybackControls.tsx`/`PropertiesPanel.tsx` is).  Spec section 4.2:
"`deleteClip(clipId)`: removes from its track's sequence; recompacts
remaining siblings." -/
def deleteClip (clipId : String) (tracks : List Track) : List Track :=
  tracks.map (fun track =>
    if track.clips.any (fun c => c.id = clipId) then
      { track with
        clips := recalculateStartFrames
          (track.clips.filter (fun c => ¬ c.id = clipId)) }
    else track)

/-- Per-track effect of `handleClipResize`
(`src/src/editor/EditorPage.tsx` lines 699-725): find the clip by id;
if absent the track is untouched; otherwise clamp the new duration with
`Math.max(1, newDurationInFrames)`, overwrite the scale fields only when
provided, and recompact the track. -/
def resizeClipInTrack (clipId : String) (newDurationInFrames : ℤ)
    (newScaleX newScaleY : Option ℚ) (track : Track) : Track :=
  match track.clips.findIdx? (fun c => c.id = clipId) with
  | none => track
  | some clipIndex =>
      match track.clips.get? clipIndex with
      | none => track
      | some old =>
          let updatedClip :=
            { old with
              durationInFrames := max 1 newDurationInFrames,
              scaleX := match newScaleX with
                | some v => some v
                | none => old.scaleX,
              scaleY := match newScaleY with
                | some v => some v
                | none => old.scaleY }
          { track with
            clips := recalculateStartFrames
              (track.clips.set clipIndex updatedClip) }

/-- The whole `handleClipResize` update
(`src/src/editor/EditorPage.tsx` lines 692-729): every track is mapped
through `resizeClipInTrack`. -/
def handleClipResize (clipId : String) (newDurationInFrames : ℤ)
    (newScaleX newScaleY : Option ℚ) (tracks : List Track) : List Track :=
  tracks.map (resizeClipInTrack clipId newDurationInFrames newScaleX newScaleY)

/-- End frame of a clip, `(clip.startFrame || 0) + clip.durationInFrames`
(on a non-negative integer `startFrame` the JS `|| 0` only replaces a
missing field). -/
def clipEnd (c : Clip) : ℤ := c.startFrame.getD 0 + c.durationInFrames

/-- The `Math.max(...list)` spread over a list of integers; the callers
only evaluate it on non-empty lists. -/
def listMax : List ℤ → ℤ
  | [] => 0
  | x :: xs => xs.foldl max x

/-- Cross-track move, the drop-on-a-track branch of `handleDragEnd`
(`src/src/editor/EditorPage.tsx` lines 391-462).  An incompatible
clip/track pairing leaves the state untouched; otherwise the clip is
removed from the source track (no recompaction), and appended to the
target track with `startFrame` set to the maximal end frame of the
remaining target clips (0 when the target is empty). -/
def moveClipToTrack (activeId overId : String) (tracks : List Track) :
    List Track :=
  match tracks.find? (fun t => t.clips.any (fun c => c.id = activeId)) with
  | none => tracks
  | some sourceTrack =>
      match sourceTrack.clips.find? (fun c => c.id = activeId) with
      | none => tracks
      | some clip =>
          match tracks.find? (fun t => t.id = overId) with
          | none => tracks
          | some targetTrack =>
              if targetTrack.type = some (clipTypeForMatching clip.type) then
                let step1 :=
                  match tracks.findIdx? (fun t => t.id = sourceTrack.id) with
                  | none => tracks
                  | some sourceTrackIndex =>
                      match tracks.get? sourceTrackIndex with
                      | none => tracks
                      | some st =>
                          tracks.set sourceTrackIndex
                            { st with
                              clips := st.clips.filter
                                (fun c => ¬ c.id = activeId) }
                match step1.findIdx? (fun t => t.id = targetTrack.id) with
                | none => step1
                | some targetTrackIndex =>
                    match step1.get? targetTrackIndex with
                    | none => step1
                    | some tt =>
                        let remainingClips :=
                          tt.clips.filter (fun c => ¬ c.id = activeId)
                        let dropFrame : ℤ :=
                          if remainingClips.isEmpty then 0
                          else listMax (remainingClips.map clipEnd)
                        step1.set targetTrackIndex
                          { tt with
                            clips := remainingClips
                              ++ [{ clip with startFrame := some dropFrame }] }
              else tracks

/-- Total composition length, the `totalFrames` memo of
`src/src/editor/EditorPage.tsx` lines 75-84: running maximum of all clip
end frames starting from 0, then `Math.max(maxEnd, 90)`. -/
def totalFrames (tracks : List Track) : ℤ :=
  let maxEnd := tracks.foldl
    (fun m t => t.clips.foldl (fun m c => max m (clipEnd c)) m) 0
  max maxEnd 90

/-- The fixed logical composition width (1280), hardcoded across
`EditorPage.tsx` and `src/unnamed/part_002`. -/
def compositionWidth : ℚ := 1280

/-- The fixed logical composition height (720). -/
def compositionHeight : ℚ := 720

/-- Scale clamp `Math.max(0.1, Math.min(3, v))` used by every resize path
(`src/src/editor/ClipResizeOverlay.tsx` lines 116-139). -/
def clampScale (v : ℚ) : ℚ := max (1 / 10) (min 3 v)

/-- Aspect ratio recorded on gesture start
(`const currentAspectRatio = scaleY !== 0 ? scaleX / scaleY : 1`,
`src/src/editor/ClipResizeOverlay.tsx` line 65). -/
def gestureAspectRatio (scaleX scaleY : ℚ) : ℚ :=
  if scaleY ≠ 0 then scaleX / scaleY else 1

/-- Raw horizontal scale delta of a left/right handle
(`resizeHandle === 'left' ? -(deltaX / compositionWidth) * 2
: (deltaX / compositionWidth) * 2`,
`src/src/editor/ClipResizeOverlay.tsx` lines 113-115). -/
def hScaleDelta (isLeft : Bool) (deltaX : ℚ) : ℚ :=
  if isLeft then -(deltaX / compositionWidth) * 2
  else deltaX / compositionWidth * 2

/-- Raw vertical scale delta of a top/bottom handle
(`src/src/editor/ClipResizeOverlay.tsx` lines 128-130). -/
def vScaleDelta (isTop : Bool) (deltaY : ℚ) : ℚ :=
  if isTop then -(deltaY / compositionHeight) * 2
  else deltaY / compositionHeight * 2

/-- One left/right-handle resize step
(`src/src/editor/ClipResizeOverlay.tsx` lines 111-125): clamp the new
`scaleX`, re-derive `scaleY` from the recorded aspect ratio, clamp it, and
when the clamped `scaleY` sits on a bound re-derive `scaleX` from it.
Returns `(newScaleX, newScaleY)`. -/
def sideResizeHorizontal (initialScaleX aspectRatio : ℚ) (isLeft : Bool)
    (deltaX : ℚ) : ℚ × ℚ :=
  let scaleDelta := hScaleDelta isLeft deltaX
  let newScaleX := clampScale (initialScaleX + scaleDelta)
  let newScaleY := clampScale (newScaleX / aspectRatio)
  if newScaleY = 3 ∨ newScaleY = 1 / 10 then
    (clampScale (newScaleY * aspectRatio), newScaleY)
  else
    (newScaleX, newScaleY)

/-- One top/bottom-handle resize step
(`src/src/editor/ClipResizeOverlay.tsx` lines 126-140), symmetric to
`sideResizeHorizontal`.  Returns `(newScaleX, newScaleY)`. -/
def sideResizeVertical (initialScaleY aspectRatio : ℚ) (isTop : Bool)
    (deltaY : ℚ) : ℚ × ℚ :=
  let scaleDelta := vScaleDelta isTop deltaY
  let newScaleY := clampScale (initialScaleY + scaleDelta)
  let newScaleX := clampScale (newScaleY * aspectRatio)
  if newScaleX = 3 ∨ newScaleX = 1 / 10 then
    (newScaleX, clampScale (newScaleX / aspectRatio))
  else
    (newScaleX, newScaleY)

/-- Displayed ("contain"-fitted) media size inside the composition, the
inline computation of the drag handler in `src/unnamed/part_002` lines
1237-1253 (and `getDisplayedDimensions`, same file): when no media
dimensions are known the composition size is used. -/
def getDisplayedDimensions (mediaDimensions : Option (ℚ × ℚ)) : ℚ × ℚ :=
  match mediaDimensions with
  | none => (compositionWidth, compositionHeight)
  | some (w, h) =>
      let mediaAspectRatio := w / h
      let compositionAspectRatio := compositionWidth / compositionHeight
      if mediaAspectRatio > compositionAspectRatio then
        (compositionWidth, compositionWidth / mediaAspectRatio)
      else
        (compositionHeight * mediaAspectRatio, compositionHeight)

/-- Position committed by one drag step, `src/unnamed/part_002` lines
1254-1260: the requested `(x, y)` (initial position plus pointer delta in
composition pixels) is pushed into
`Math.max(-maxX, Math.min(maxX, ·))` with
`maxX = (compositionWidth - scaledWidth) / 2`, and symmetrically for `y`. -/
def dragCommit (mediaDimensions : Option (ℚ × ℚ))
    (scaleX scaleY requestedX requestedY : ℚ) : ℚ × ℚ :=
  let dims := getDisplayedDimensions mediaDimensions
  let currentScaledWidth := dims.1 * scaleX
  let currentScaledHeight := dims.2 * scaleY
  let maxX := (compositionWidth - currentScaledWidth) / 2
  let maxY := (compositionHeight - currentScaledHeight) / 2
  (max (-maxX) (min maxX requestedX), max (-maxY) (min maxY requestedY))

/-- Containment of the scaled bounding box in the composition rectangle
`[0, compositionWidth] × [0, compositionHeight]`; the box of a clip at
`(x, y)` has `left = compositionWidth / 2 + x - scaledWidth / 2` and
`top = compositionHeight / 2 + y - scaledHeight / 2` (spec section 4.1,
matching the hit-test boxes of `src/unnamed/part_002` lines 1405-1414). -/
def bboxWithin (x y scaledWidth scaledHeight : ℚ) : Prop :=
  0 ≤ compositionWidth / 2 + x - scaledWidth / 2 ∧
  compositionWidth / 2 + x - scaledWidth / 2 + scaledWidth
    ≤ compositionWidth ∧
  0 ≤ compositionHeight / 2 + y - scaledHeight / 2 ∧
  compositionHeight / 2 + y - scaledHeight / 2 + scaledHeight
    ≤ compositionHeight

instance (x y w h : ℚ) : Decidable (bboxWithin x y w h) := by
  unfold bboxWithin
  infer_instance

/-- Effective stacking value of a clip, the z-sort key of the click
hit-test (`src/unnamed/part_002` lines 1392-1396:
`(tracks.length - 1 - trackIndex) * 1000 + clipIndex`). -/
def zValue (numTracks trackIndex clipIndex : ℕ) : ℤ :=
  ((numTracks : ℤ) - 1 - (trackIndex : ℤ)) * 1000 + (clipIndex : ℤ)

/-- Visibility of a clip at a frame
(`currentFrame >= startFrame && currentFrame < endFrame`,
`src/unnamed/part_002` lines 1383-1385). -/
def visibleAtFrame (currentFrame : ℤ) (c : Clip) : Prop :=
  c.startFrame.getD 0 ≤ currentFrame ∧ currentFrame < clipEnd c

instance (f : ℤ) (c : Clip) : Decidable (visibleAtFrame f c) := by
  unfold visibleAtFrame
  infer_instance

theorem clampScale_eq_self (v : ℚ) (h1 : 1 / 10 ≤ v) (h2 : v ≤ 3) :
    clampScale v = v := by
  unfold clampScale
  rw [min_eq_right h2, max_eq_right h1]

/-- C8: aspect-preserving side-handle resize.  With
`aspectRatio = sx / sy` recorded at gesture start (guarding division by
zero), after a left/right or top/bottom resize step in which neither axis
leaves the `[0.1, 3.0]` clamp range, the committed scales satisfy
`newScaleX / newScaleY = aspectRatio` exactly (rationals model the
floating-point values). -/
theorem aspect_preserved_side_resize
    (sx sy dX dY : ℚ) (isLeft isTop : Bool)
    (hx1 : 1 / 10 ≤ sx + hScaleDelta isLeft dX)
    (hx2 : sx + hScaleDelta isLeft dX ≤ 3)
    (hx3 : 1 / 10 ≤ (sx + hScaleDelta isLeft dX) / gestureAspectRatio sx sy)
    (hx4 : (sx + hScaleDelta isLeft dX) / gestureAspectRatio sx sy ≤ 3)
    (hy1 : 1 / 10 ≤ sy + vScaleDelta isTop dY)
    (hy2 : sy + vScaleDelta isTop dY ≤ 3)
    (hy3 : 1 / 10 ≤ (sy + vScaleDelta isTop dY) * gestureAspectRatio sx sy)
    (hy4 : (sy + vScaleDelta isTop dY) * gestureAspectRatio sx sy ≤ 3) :
    (sideResizeHorizontal sx (gestureAspectRatio sx sy) isLeft dX).1
        / (sideResizeHorizontal sx (gestureAspectRatio sx sy) isLeft dX).2
      = gestureAspectRatio sx sy ∧
    (sideResizeVertical sy (gestureAspectRatio sx sy) isTop dY).1
        / (sideResizeVertical sy (gestureAspectRatio sx sy) isTop dY).2
      = gestureAspectRatio sx sy := by
  have har : gestureAspectRatio sx sy ≠ 0 := by
    intro h
    rw [h, div_zero] at hx3
    norm_num at hx3
  have ha0 : sx + hScaleDelta isLeft dX ≠ 0 := by
    intro h
    rw [h] at hx1
    norm_num at hx1
  have hb0 : sy + vScaleDelta isTop dY ≠ 0 := by
    intro h
    rw [h] at hy1
    norm_num at hy1
  have hH : sideResizeHorizontal sx (gestureAspectRatio sx sy) isLeft dX
      = (sx + hScaleDelta isLeft dX,
         (sx + hScaleDelta isLeft dX) / gestureAspectRatio sx sy) := by
    simp only [sideResizeHorizontal]
    rw [clampScale_eq_self _ hx1 hx2, clampScale_eq_self _ hx3 hx4]
    split_ifs with hcond
    · rw [div_mul_cancel₀ _ har, clampScale_eq_self _ hx1 hx2]
    · rfl
  have hV : sideResizeVertical sy (gestureAspectRatio sx sy) isTop dY
      = ((sy + vScaleDelta isTop dY) * gestureAspectRatio sx sy,
         sy + vScaleDelta isTop dY) := by
    simp only [sideResizeVertical]
    rw [clampScale_eq_self _ hy1 hy2, clampScale_eq_self _ hy3 hy4]
    split_ifs with hcond
    · rw [mul_div_assoc, div_self har, mul_one, clampScale_eq_self _ hy1 hy2]
    · rfl
  rw [hH, hV]
  dsimp only
  constructor
  · rw [div_div_eq_mul_div, mul_comm, mul_div_assoc, div_self ha0, mul_one]
  · rw [mul_comm, mul_div_assoc, div_self hb0, mul_one]

/-- Witness for C8: a concrete no-clamp resize step (unit scales, zero
pointer delta) preserving the 1:1 ratio. -/
theorem aspect_preserved_side_resize_witness :
    (sideResizeHorizontal 1 (gestureAspectRatio 1 1) false 0).1
        / (sideResizeHorizontal 1 (gestureAspectRatio 1 1) false 0).2
      = gestureAspectRatio 1 1 ∧
    (sideResizeVertical 1 (gestureAspectRatio 1 1) false 0).1
        / (sideResizeVertical 1 (gestureAspectRatio 1 1) false 0).2
      = gestureAspectRatio 1 1 :=
  aspect_preserved_side_resize 1 1 0 0 false false
    (by norm_num [hScaleDelta, gestureAspectRatio])
    (by norm_num [hScaleDelta, gestureAspectRatio])
    (by norm_num [hScaleDelta, gestureAspectRatio])
    (by norm_num [hScaleDelta, gestureAspectRatio])
    (by norm_num [vScaleDelta, gestureAspectRatio])
    (by norm_num [vScaleDelta, gestureAspectRatio])
    (by norm_num [vScaleDelta, gestureAspectRatio])
    (by norm_num [vScaleDelta, gestureAspectRatio])

/-- C9: clamp-boundary scenario.  From `scaleX = scaleY = 1` and aspect
ratio 1, a right-handle drag of `deltaX = -608` viewport pixels requests
the raw scale `1 + (-608 / 1280) * 2 = 0.05`; the commit clamps `scaleX`
to `0.1` and re-derives `scaleY = 0.1`, preserving the 1:1 ratio at the
clamp boundary. -/
theorem clamp_boundary_right_handle_resize :
    1 + hScaleDelta false (-608) = 1 / 20 ∧
    sideResizeHorizontal 1 (gestureAspectRatio 1 1) false (-608)
      = (1 / 10, 1 / 10) := by
  constructor
  · norm_num [hScaleDelta, compositionWidth]
  · norm_num [sideResizeHorizontal, gestureAspectRatio, clampScale,
      hScaleDelta, compositionWidth, min_def, max_def]

/-- Concrete text clip used in witnesses and counterexamples. -/
def sampleClip : Clip :=
  { id := "clip-0", type := ClipType.text, text := some "hello",
    startFrame := some 0, durationInFrames := 5 }

/-- C6 counterexample: with no media dimensions (displayed size is the full
1280×720 composition), `scaleX = 3` and requested position `(0, 0)`, the
drag commit produces `x = 1280`, and the scaled box (width 3840) does NOT
stay inside `[0, 1280] × [0, 720]`: containment is impossible once the
scaled width exceeds the composition width, so the claim fails as stated. -/
theorem drag_containment_counterexample :
    (dragCommit none 3 1 0 0).1 = 1280 ∧
    ¬ bboxWithin (dragCommit none 3 1 0 0).1 (dragCommit none 3 1 0 0).2
        ((getDisplayedDimensions none).1 * 3)
        ((getDisplayedDimensions none).2 * 1) := by
  constructor
  · norm_num [dragCommit, getDisplayedDimensions, compositionWidth,
      compositionHeight, min_def, max_def]
  · norm_num [dragCommit, getDisplayedDimensions, bboxWithin,
      compositionWidth, compositionHeight, min_def, max_def]

/-- C6 amended: provided the scaled bounding box fits the composition
(`scaledWidth ≤ compositionWidth` and `scaledHeight ≤ compositionHeight`),
a drag commit clamps `x` to `±(compositionWidth - scaledWidth) / 2` and
`y` to `±(compositionHeight - scaledHeight) / 2`, the committed position
keeps the scaled box inside `[0, Wc] × [0, Hc]`, and a requested
coordinate beyond the bound commits exactly the bound. -/
theorem drag_commit_contained (md : Option (ℚ × ℚ)) (sx sy reqX reqY : ℚ)
    (hW : (getDisplayedDimensions md).1 * sx ≤ compositionWidth)
    (hH : (getDisplayedDimensions md).2 * sy ≤ compositionHeight) :
    (dragCommit md sx sy reqX reqY).1
      = max (-((compositionWidth - (getDisplayedDimensions md).1 * sx) / 2))
          (min ((compositionWidth - (getDisplayedDimensions md).1 * sx) / 2)
            reqX) ∧
    (dragCommit md sx sy reqX reqY).2
      = max (-((compositionHeight - (getDisplayedDimensions md).2 * sy) / 2))
          (min ((compositionHeight - (getDisplayedDimensions md).2 * sy) / 2)
            reqY) ∧
    bboxWithin (dragCommit md sx sy reqX reqY).1
      (dragCommit md sx sy reqX reqY).2
      ((getDisplayedDimensions md).1 * sx)
      ((getDisplayedDimensions md).2 * sy) ∧
    ((compositionWidth - (getDisplayedDimensions md).1 * sx) / 2 < reqX →
      (dragCommit md sx sy reqX reqY).1
        = (compositionWidth - (getDisplayedDimensions md).1 * sx) / 2) ∧
    ((compositionHeight - (getDisplayedDimensions md).2 * sy) / 2 < reqY →
      (dragCommit md sx sy reqX reqY).2
        = (compositionHeight - (getDisplayedDimensions md).2 * sy) / 2) := by
  have hEq : dragCommit md sx sy reqX reqY
      = (max (-((compositionWidth - (getDisplayedDimensions md).1 * sx) / 2))
          (min ((compositionWidth - (getDisplayedDimensions md).1 * sx) / 2)
            reqX),
         max (-((compositionHeight - (getDisplayedDimensions md).2 * sy) / 2))
          (min ((compositionHeight - (getDisplayedDimensions md).2 * sy) / 2)
            reqY)) := rfl
  have hmx : 0 ≤ (compositionWidth - (getDisplayedDimensions md).1 * sx) / 2 := by
    linarith
  have hmy : 0 ≤ (compositionHeight - (getDisplayedDimensions md).2 * sy) / 2 := by
    linarith
  rw [hEq]
  dsimp only
  refine ⟨rfl, rfl, ?_, ?_, ?_⟩
  · have hx1 : -((compositionWidth - (getDisplayedDimensions md).1 * sx) / 2)
        ≤ max (-((compositionWidth - (getDisplayedDimensions md).1 * sx) / 2))
            (min ((compositionWidth - (getDisplayedDimensions md).1 * sx) / 2)
              reqX) := le_max_left _ _
    have hx2 : max (-((compositionWidth - (getDisplayedDimensions md).1 * sx) / 2))
            (min ((compositionWidth - (getDisplayedDimensions md).1 * sx) / 2)
              reqX)
        ≤ (compositionWidth - (getDisplayedDimensions md).1 * sx) / 2 :=
      max_le (by linarith) (min_le_left _ _)
    have hy1 : -((compositionHeight - (getDisplayedDimensions md).2 * sy) / 2)
        ≤ max (-((compositionHeight - (getDisplayedDimensions md).2 * sy) / 2))
            (min ((compositionHeight - (getDisplayedDimensions md).2 * sy) / 2)
              reqY) := le_max_left _ _
    have hy2 : max (-((compositionHeight - (getDisplayedDimensions md).2 * sy) / 2))
            (min ((compositionHeight - (getDisplayedDimensions md).2 * sy) / 2)
              reqY)
        ≤ (compositionHeight - (getDisplayedDimensions md).2 * sy) / 2 :=
      max_le (by linarith) (min_le_left _ _)
    exact ⟨by linarith, by linarith, by linarith, by linarith⟩
  · intro hreq
    rw [min_eq_left (le_of_lt hreq), max_eq_right (by linarith)]
  · intro hreq
    rw [min_eq_left (le_of_lt hreq), max_eq_right (by linarith)]

/-- Witness for the amended C6: a unit-scale clip (scaled box exactly the
composition) dragged far right commits exactly the bound `x = 0` and the
box stays inside the composition. -/
theorem drag_commit_contained_witness :
    bboxWithin (dragCommit none 1 1 10000 0).1 (dragCommit none 1 1 10000 0).2
      ((getDisplayedDimensions none).1 * 1)
      ((getDisplayedDimensions none).2 * 1) ∧
    (dragCommit none 1 1 10000 0).1
      = (compositionWidth - (getDisplayedDimensions none).1 * 1) / 2 :=
  ⟨(drag_commit_contained none 1 1 10000 0
      (by norm_num [getDisplayedDimensions, compositionWidth])
      (by norm_num [getDisplayedDimensions, compositionHeight])).2.2.1,
   (drag_commit_contained none 1 1 10000 0
      (by norm_num [getDisplayedDimensions, compositionWidth])
      (by norm_num [getDisplayedDimensions, compositionHeight])).2.2.2.1
     (by norm_num [getDisplayedDimensions, compositionWidth])⟩

/-- Track with a single sample clip, for the z-order counterexample. -/
def cexTrackA : Track :=
  { id := "track-A", clips := [sampleClip], type := some ClipType.text }

/-- Track with 1001 copies of the sample clip (all starting at frame 0,
hence all visible at frame 0), for the z-order counterexample. -/
def cexTrackB : Track :=
  { id := "track-B", clips := List.replicate 1001 sampleClip,
    type := some ClipType.text }

/-- Two-track state for the z-order counterexample. -/
def cexTracks : List Track := [cexTrackA, cexTrackB]

/-- C7 counterexample: with two tracks where the second holds 1001 clips,
the clip at index 1000 of track 1 has z-value
`(2 - 1 - 1) * 1000 + 1000 = 1000`, equal to the z-value
`(2 - 1 - 0) * 1000 + 0 = 1000` of the clip on track 0 — both visible at
frame 0 — so the clip on the lower track index does NOT have the strictly
higher effective z-value. -/
theorem zorder_counterexample :
    cexTracks = [cexTrackA, cexTrackB] ∧
    cexTrackA.clips.length = 1 ∧
    cexTrackB.clips.length = 1001 ∧
    visibleAtFrame 0 sampleClip ∧
    (∀ c ∈ cexTrackA.clips, c = sampleClip) ∧
    (∀ c ∈ cexTrackB.clips, c = sampleClip) ∧
    ¬ (zValue cexTracks.length 1 1000 < zValue cexTracks.length 0 0) := by
  have hlen : cexTrackB.clips.length = 1001 := by
    show (List.replicate 1001 sampleClip).length = 1001
    rw [List.length_replicate]
  refine ⟨rfl, rfl, hlen, ?_, ?_, ?_, ?_⟩
  · exact ⟨by norm_num [sampleClip], by norm_num [sampleClip, clipEnd]⟩
  · intro c hc
    simpa [cexTrackA] using hc
  · intro c hc
    exact List.eq_of_mem_replicate hc
  · show ¬ (zValue 2 1 1000 < zValue 2 0 0)
    norm_num [zValue]

/-- C7 amended: the effective stacking value of a clip is
`(numTracks - 1 - trackIndex) * 1000 + indexWithinTrack`, and provided the
within-track index on the higher-indexed track is below 1000 (tracks of at
most 1000 clips), a clip on a strictly lower track index always has a
strictly higher z-value.  (With 1001 clips on a track, ties are possible —
see the counterexample.) -/
theorem zorder_amended (numTracks tA tB iA iB : ℕ)
    (hT : tA < tB) (hB : iB < 1000) :
    zValue numTracks tB iB < zValue numTracks tA iA := by
  unfold zValue
  have h1 : (tA : ℤ) + 1 ≤ (tB : ℤ) := by exact_mod_cast hT
  have h2 : (iB : ℤ) < 1000 := by exact_mod_cast hB
  have h3 : (0 : ℤ) ≤ (iA : ℤ) := Int.ofNat_nonneg iA
  have h4 : (1 : ℤ) * 1000 ≤ ((tB : ℤ) - (tA : ℤ)) * 1000 := by
    apply mul_le_mul_of_nonneg_right _ (by norm_num)
    linarith
  nlinarith

/-- Witness for the amended C7 at a concrete input. -/
theorem zorder_amended_witness :
    (0 < 1) ∧ (999 < 1000) ∧ zValue 2 1 999 < zValue 2 0 0 :=
  ⟨by decide, by decide, zorder_amended 2 0 1 0 999 (by decide) (by decide)⟩

/-- C10: `recalculateStartFrames` returns a list of the same length and
order, and for each position every field except `startFrame` (id, type,
src, text, name, durationInFrames, scaleX, scaleY, x, y) is unchanged. -/
theorem recalculate_preserves_fields (clips : List Clip) :
    (recalculateStartFrames clips).length = clips.length ∧
    ∀ i : ℕ, ∀ h : i < clips.length,
      ∀ h' : i < (recalculateStartFrames clips).length,
        ((recalculateStartFrames clips).get ⟨i, h'⟩).id
            = (clips.get ⟨i, h⟩).id ∧
        ((recalculateStartFrames clips).get ⟨i, h'⟩).type
            = (clips.get ⟨i, h⟩).type ∧
        ((recalculateStartFrames clips).get ⟨i, h'⟩).src
            = (clips.get ⟨i, h⟩).src ∧
        ((recalculateStartFrames clips).get ⟨i, h'⟩).text
            = (clips.get ⟨i, h⟩).text ∧
        ((recalculateStartFrames clips).get ⟨i, h'⟩).name
            = (clips.get ⟨i, h⟩).name ∧
        ((recalculateStartFrames clips).get ⟨i, h'⟩).durationInFrames
            = (clips.get ⟨i, h⟩).durationInFrames ∧
        ((recalculateStartFrames clips).get ⟨i, h'⟩).scaleX
            = (clips.get ⟨i, h⟩).scaleX ∧
        ((recalculateStartFrames clips).get ⟨i, h'⟩).scaleY
            = (clips.get ⟨i, h⟩).scaleY ∧
        ((recalculateStartFrames clips).get ⟨i, h'⟩).x
            = (clips.get ⟨i, h⟩).x ∧
        ((recalculateStartFrames clips).get ⟨i, h'⟩).y
            = (clips.get ⟨i, h⟩).y := by
  refine ⟨length_recalculateStartFrames clips, ?_⟩
  intro i h h'
  rw [getElem_recalculateStartFrames clips i h h']
  exact ⟨rfl, rfl, rfl, rfl, rfl, rfl, rfl, rfl, rfl, rfl⟩

/-- Witness for C10 on a one-clip list. -/
theorem recalculate_preserves_fields_witness :
    (recalculateStartFrames [sampleClip]).length = [sampleClip].length ∧
    ((recalculateStartFrames [sampleClip]).get
        ⟨0, by simp [length_recalculateStartFrames]⟩).id
      = ([sampleClip].get ⟨0, by simp⟩).id :=
  ⟨(recalculate_preserves_fields [sampleClip]).1,
   ((recalculate_preserves_fields [sampleClip]).2 0 (by simp)
      (by simp [length_recalculateStartFrames])).1⟩

theorem foldl_max_spec (l : List ℤ) (a : ℤ) :
    a ≤ l.foldl max a ∧ (∀ x ∈ l, x ≤ l.foldl max a) ∧
      (l.foldl max a = a ∨ l.foldl max a ∈ l) := by
  induction l generalizing a with
  | nil => exact ⟨le_refl a, by simp, Or.inl rfl⟩
  | cons x xs ih =>
      simp only [List.foldl_cons]
      obtain ⟨h1, h2, h3⟩ := ih (max a x)
      refine ⟨le_trans (le_max_left a x) h1, ?_, ?_⟩
      · intro y hy
        rcases List.mem_cons.mp hy with h | h
        · rw [h]
          exact le_trans (le_max_right a x) h1
        · exact h2 y h
      · rcases h3 with h | h
        · rcases max_choice a x with hm | hm
          · exact Or.inl (h.trans hm)
          · refine Or.inr ?_
            rw [h, hm]
            exact List.mem_cons_self x xs
        · exact Or.inr (List.mem_cons_of_mem x h)

theorem foldl_clips_flatten (tracks : List Track) (a : ℤ) :
    tracks.foldl (fun m t => t.clips.foldl (fun m c => max m (clipEnd c)) m) a
      = (tracks.flatMap Track.clips).foldl (fun m c => max m (clipEnd c)) a := by
  induction tracks generalizing a with
  | nil => rfl
  | cons t ts ih =>
      simp only [List.foldl_cons, List.flatMap_cons, List.foldl_append]
      exact ih _

/-- Demo video clip of 60 frames for the C5 scenario. -/
def demoClip60 : Clip :=
  { id := "demo-60", type := ClipType.video, src := some "blob:a",
    startFrame := some 0, durationInFrames := 60 }

/-- Demo video clip of 30 frames for the C5 scenario. -/
def demoClip30 : Clip :=
  { id := "demo-30", type := ClipType.video, src := some "blob:b",
    startFrame := some 0, durationInFrames := 30 }

/-- Demo video track already holding the 60-frame clip. -/
def demoTrack : Track :=
  { id := "video-track-1", clips := [demoClip60], name := some "Video",
    type := some ClipType.video }

/-- C5: the total timeline duration is
`max(90, max over all clips of (startFrame + durationInFrames))`: it is at
least 90, bounds every clip end, and is either 90 or realised by a clip
end; an empty project (no clips on any track) yields exactly 90; and
adding a 30-frame clip after a 60-frame clip by compaction placement gives
the second clip `startFrame = 60`. -/
theorem total_duration_spec (tracks : List Track) :
    (90 ≤ totalFrames tracks) ∧
    (∀ t ∈ tracks, ∀ c ∈ t.clips, clipEnd c ≤ totalFrames tracks) ∧
    (totalFrames tracks = 90 ∨
      ∃ t ∈ tracks, ∃ c ∈ t.clips, totalFrames tracks = clipEnd c) ∧
    ((∀ t ∈ tracks, t.clips = []) → totalFrames tracks = 90) ∧
    (((addClipToTimeline "demo-30-copy" "unused" demoClip30
          (some "video-track-1") [demoTrack]).get? 0).bind
        (fun t => (t.clips.get? 1).bind Clip.startFrame) = some 60) := by
  have hflat : totalFrames tracks
      = max (((tracks.flatMap Track.clips).map clipEnd).foldl max 0) 90 := by
    unfold totalFrames
    rw [foldl_clips_flatten, ← List.foldl_map]
  obtain ⟨hinit, hall, hmem⟩ :=
    foldl_max_spec ((tracks.flatMap Track.clips).map clipEnd) 0
  refine ⟨?_, ?_, ?_, ?_, ?_⟩
  · rw [hflat]
    exact le_max_right _ _
  · intro t ht c hc
    rw [hflat]
    refine le_trans ?_ (le_max_left _ _)
    exact hall (clipEnd c)
      (List.mem_map_of_mem clipEnd (List.mem_flatMap.mpr ⟨t, ht, hc⟩))
  · rcases le_total (((tracks.flatMap Track.clips).map clipEnd).foldl max 0) 90
      with h | h
    · left
      rw [hflat, max_eq_right h]
    · rcases hmem with h0 | hin
      · left
        rw [hflat, h0]
        exact max_eq_right (by norm_num)
      · obtain ⟨c, hcflat, hce⟩ := List.mem_map.mp hin
        obtain ⟨t, ht, hc⟩ := List.mem_flatMap.mp hcflat
        refine Or.inr ⟨t, ht, c, hc, ?_⟩
        rw [hflat, max_eq_left h, ← hce]
  · intro hempty
    have hnil : tracks.flatMap Track.clips = [] := by
      rw [List.eq_nil_iff_forall_not_mem]
      intro c hc
      obtain ⟨t, ht, hcc⟩ := List.mem_flatMap.mp hc
      rw [hempty t ht] at hcc
      exact List.not_mem_nil c hcc
    rw [hflat, hnil]
    exact max_eq_right (by norm_num)
  · rfl

/-- Witness for C5 on the empty project. -/
theorem total_duration_spec_witness :
    totalFrames [] = 90 ∧
    (((addClipToTimeline "demo-30-copy" "unused" demoClip30
          (some "video-track-1") [demoTrack]).get? 0).bind
        (fun t => (t.clips.get? 1).bind Clip.startFrame) = some 60) :=
  ⟨(total_duration_spec []).2.2.2.1 (by simp),
   (total_duration_spec []).2.2.2.2⟩

/-- C4: `handleClipResize` clamps the requested duration from below at 1
and recompacts the owning track.  For any track containing the clip (found
at index `i`), the resulting track keeps its id and length, satisfies the
compaction invariant (so subsequent siblings shift), and holds the clip
with `durationInFrames = max 1 newDur` at the same index. -/
theorem resize_clamps_duration (clipId : String) (newDur : ℤ)
    (nsx nsy : Option ℚ) (tracks : List Track) (t : Track) (ht : t ∈ tracks)
    (i : ℕ)
    (hfind : t.clips.findIdx? (fun c => c.id = clipId) = some i) :
    ∃ t' ∈ handleClipResize clipId newDur nsx nsy tracks,
      t'.id = t.id ∧ compacted t'.clips ∧
      t'.clips.length = t.clips.length ∧
      ∃ h : i < t'.clips.length,
        (t'.clips.get ⟨i, h⟩).durationInFrames = max 1 newDur := by
  obtain ⟨hi, hfi⟩ := List.findIdx?_eq_some_iff_findIdx_eq.mp hfind
  have hget : t.clips.get? i = some (t.clips.get ⟨i, hi⟩) := by
    rw [List.get?_eq_getElem?]
    exact List.getElem?_eq_getElem hi
  have hres : resizeClipInTrack clipId newDur nsx nsy t
      = { t with clips := recalculateStartFrames (t.clips.set i
          { t.clips.get ⟨i, hi⟩ with
            durationInFrames := max 1 newDur,
            scaleX := match nsx with
              | some v => some v
              | none => (t.clips.get ⟨i, hi⟩).scaleX,
            scaleY := match nsy with
              | some v => some v
              | none => (t.clips.get ⟨i, hi⟩).scaleY }) } := by
    unfold resizeClipInTrack
    simp only [hfind, hget]
  obtain ⟨upd, hdur, hres'⟩ : ∃ u : Clip,
      u.durationInFrames = max 1 newDur ∧
      resizeClipInTrack clipId newDur nsx nsy t
        = { t with clips := recalculateStartFrames (t.clips.set i u) } :=
    ⟨_, rfl, hres⟩
  refine ⟨resizeClipInTrack clipId newDur nsx nsy t,
    List.mem_map_of_mem _ ht, ?_, ?_, ?_, ?_⟩
  · rw [hres']
  · rw [hres']
    exact compacted_recalculateStartFrames _
  · rw [hres']
    show (recalculateStartFrames _).length = t.clips.length
    rw [length_recalculateStartFrames, List.length_set]
  · rw [hres']
    have hset : i < (t.clips.set i upd).length := by
      rw [List.length_set]
      exact hi
    have hlen : i < (recalculateStartFrames (t.clips.set i upd)).length := by
      rw [length_recalculateStartFrames]
      exact hset
    refine ⟨hlen, ?_⟩
    show ((recalculateStartFrames _).get ⟨i, hlen⟩).durationInFrames
      = max 1 newDur
    rw [getElem_recalculateStartFrames _ i hset hlen]
    show ((t.clips.set i upd).get ⟨i, hset⟩).durationInFrames = max 1 newDur
    rw [List.get_eq_getElem, List.getElem_set_self, hdur]

/-- Witness for C4: resizing the 60-frame demo clip to a negative duration
commits `max 1 (-5) = 1` and recompacts the track. -/
theorem resize_clamps_duration_witness :
    ∃ t' ∈ handleClipResize "demo-60" (-5) none none [demoTrack],
      t'.id = demoTrack.id ∧ compacted t'.clips ∧
      t'.clips.length = demoTrack.clips.length ∧
      ∃ h : 0 < t'.clips.length,
        (t'.clips.get ⟨0, h⟩).durationInFrames = max 1 (-5) :=
  resize_clamps_duration "demo-60" (-5) none none [demoTrack] demoTrack
    (by simp) 0 rfl

/-- Demo audio clip, incompatible with video tracks. -/
def demoAudioClip : Clip :=
  { id := "aud-1", type := ClipType.audio, src := some "blob:c",
    startFrame := some 0, durationInFrames := 40 }

/-- Demo audio track holding the demo audio clip. -/
def demoAudioTrack : Track :=
  { id := "audio-track-1", clips := [demoAudioClip], name := some "Audio",
    type := some ClipType.audio }

/-- C3: dropping a clip on a track of incompatible type is a silent no-op:
`moveClipToTrack` returns the track list unchanged (no error, full state
preserved), and the compatibility test of `Timeline.tsx` coincides with
the `EditorPage.tsx` gate `targetTrack.type === clipTypeForMatching`
(image/video on "video" tracks, audio on audio, text on text). -/
theorem incompatible_move_noop (activeId overId : String)
    (tracks : List Track) (sourceTrack : Track) (clip : Clip)
    (targetTrack : Track)
    (hS : tracks.find? (fun t => t.clips.any (fun c => c.id = activeId))
      = some sourceTrack)
    (hc : sourceTrack.clips.find? (fun c => c.id = activeId) = some clip)
    (hT : tracks.find? (fun t => t.id = overId) = some targetTrack)
    (hbad : isClipCompatibleWithTrack clip.type targetTrack.type = false) :
    moveClipToTrack activeId overId tracks = tracks ∧
    (∀ ct : ClipType, ∀ tt : Option ClipType,
      isClipCompatibleWithTrack ct tt = true
        ↔ tt = some (clipTypeForMatching ct)) := by
  have hequiv : ∀ ct : ClipType, ∀ tt : Option ClipType,
      isClipCompatibleWithTrack ct tt = true
        ↔ tt = some (clipTypeForMatching ct) := by
    intro ct tt
    cases ct <;> rcases tt with _ | t <;>
      simp [isClipCompatibleWithTrack, clipTypeForMatching]
  refine ⟨?_, hequiv⟩
  have hne : ¬ (targetTrack.type = some (clipTypeForMatching clip.type)) := by
    intro h
    have htrue := (hequiv clip.type targetTrack.type).mpr h
    rw [hbad] at htrue
    exact Bool.false_ne_true htrue
  unfold moveClipToTrack
  simp only [hS, hc, hT]
  rw [if_neg hne]

/-- Witness for C3: moving the demo audio clip onto the demo video track
leaves the two-track state unchanged. -/
theorem incompatible_move_noop_witness :
    moveClipToTrack "aud-1" "video-track-1" [demoAudioTrack, demoTrack]
      = [demoAudioTrack, demoTrack] ∧
    (isClipCompatibleWithTrack ClipType.audio (some ClipType.video) = true
      ↔ some ClipType.video
          = some (clipTypeForMatching ClipType.audio)) :=
  ⟨(incompatible_move_noop "aud-1" "video-track-1"
      [demoAudioTrack, demoTrack] demoAudioTrack demoAudioClip demoTrack
      rfl rfl rfl rfl).1,
   (incompatible_move_noop "aud-1" "video-track-1"
      [demoAudioTrack, demoTrack] demoAudioTrack demoAudioClip demoTrack
      rfl rfl rfl rfl).2 ClipType.audio (some ClipType.video)⟩

theorem findIdx?_isSome_of_mem {α : Type} (p : α → Bool) (l : List α)
    (a : α) (ha : a ∈ l) (hp : p a = true) :
    ∃ i, l.findIdx? p = some i := by
  cases h : l.findIdx? p with
  | some i => exact ⟨i, rfl⟩
  | none =>
      have hfalse := List.findIdx?_eq_none_iff.mp h a ha
      rw [hp] at hfalse
      exact absurd hfalse (by simp)

theorem findIdx?_some_facts {α : Type} (p : α → Bool) :
    ∀ (l : List α) (i : ℕ), l.findIdx? p = some i →
      ∃ hi : i < l.length, p (l.get ⟨i, hi⟩) = true := by
  intro l
  induction l with
  | nil =>
      intro i h
      rw [List.findIdx?_nil] at h
      exact absurd h (by simp)
  | cons x xs ih =>
      intro i h
      rw [List.findIdx?_cons] at h
      by_cases hp : p x = true
      · rw [if_pos hp] at h
        obtain rfl : (0 : ℕ) = i := Option.some.inj h
        exact ⟨by simp, hp⟩
      · rw [if_neg hp, List.findIdx?_succ] at h
        cases hfx : xs.findIdx? p with
        | none =>
            rw [hfx] at h
            exact absurd h (by simp)
        | some j =>
            rw [hfx] at h
            obtain rfl : j + 1 = i := Option.some.inj (by simpa using h)
            obtain ⟨hj, hpj⟩ := ih j hfx
            exact ⟨by simpa using Nat.succ_lt_succ hj, by simpa using hpj⟩

theorem listMax_spec (l : List ℤ) (hl : l ≠ []) :
    (∀ x ∈ l, x ≤ listMax l) ∧ listMax l ∈ l := by
  cases l with
  | nil => exact absurd rfl hl
  | cons x xs =>
      obtain ⟨h1, h2, h3⟩ := foldl_max_spec xs x
      have hshow : listMax (x :: xs) = xs.foldl max x := rfl
      constructor
      · intro y hy
        rw [hshow]
        rcases List.mem_cons.mp hy with h | h
        · rw [h]
          exact h1
        · exact h2 y h
      · rw [hshow]
        rcases h3 with h | h
        · rw [h]
          exact List.mem_cons_self x xs
        · exact List.mem_cons_of_mem x h

theorem get_eq_of_nodup_ids (tracks : List Track)
    (hN : (tracks.map Track.id).Nodup) (a : Track) (ha : a ∈ tracks)
    (j : ℕ) (hj : j < tracks.length)
    (hid : (tracks.get ⟨j, hj⟩).id = a.id) : tracks.get ⟨j, hj⟩ = a := by
  obtain ⟨⟨k, hk⟩, hak⟩ := List.mem_iff_get.mp ha
  have hjm : j < (tracks.map Track.id).length := by simpa using hj
  have hkm : k < (tracks.map Track.id).length := by simpa using hk
  have h1 : (tracks.map Track.id).get ⟨j, hjm⟩
      = (tracks.map Track.id).get ⟨k, hkm⟩ := by
    rw [List.get_eq_getElem, List.get_eq_getElem, List.getElem_map,
      List.getElem_map]
    rw [List.get_eq_getElem] at hak hid
    rw [hid, ← hak]
  rw [List.get_eq_getElem, List.get_eq_getElem] at h1
  have hjk : j = k := (List.Nodup.getElem_inj_iff hN).mp h1
  subst hjk
  exact hak

theorem map_id_set (tracks : List Track) (j : ℕ) (hj : j < tracks.length)
    (u : Track) (hid : u.id = (tracks.get ⟨j, hj⟩).id) :
    (tracks.set j u).map Track.id = tracks.map Track.id := by
  rw [List.map_set]
  apply List.ext_getElem
  · simp
  · intro n h1 h2
    rw [List.getElem_set]
    split
    · rename_i hjn
      subst hjn
      rw [List.getElem_map, hid, List.get_eq_getElem]
    · rfl

theorem findIdx?_id_congr (x : String) :
    ∀ (l₁ l₂ : List Track),
      l₁.map Track.id = l₂.map Track.id →
      l₁.findIdx? (fun t => t.id = x) = l₂.findIdx? (fun t => t.id = x) := by
  intro l₁
  induction l₁ with
  | nil =>
      intro l₂ h
      cases l₂ with
      | nil => rfl
      | cons b l₂ => exact absurd h (by simp)
  | cons a l₁ ih =>
      intro l₂ h
      cases l₂ with
      | nil => exact absurd h (by simp)
      | cons b l₂ =>
          simp only [List.map_cons, List.cons.injEq] at h
          rw [List.findIdx?_cons, List.findIdx?_cons, h.1,
            List.findIdx?_succ, List.findIdx?_succ, ih l₂ h.2]

/-- Clips the destination track keeps: the code filters the moved clip id
out of the target clips before appending
(`src/src/editor/EditorPage.tsx` lines 435-437). -/
def keptClips (activeId : String) (t : Track) : List Clip :=
  t.clips.filter (fun c => ¬ c.id = activeId)

/-- Positional drop frame: maximal end frame over the kept destination
clips, or 0 when none remain
(`src/src/editor/EditorPage.tsx` lines 440-448). -/
def positionalDropFrame (activeId : String) (t : Track) : ℤ :=
  if (keptClips activeId t).isEmpty then 0
  else listMax ((keptClips activeId t).map clipEnd)

/-- C2: cross-track move uses positional placement.  Under unique track
ids, when the clip `activeId` (found on `sourceTrack`) is dropped on a
different compatible track `targetTrack`, the resulting state holds the
destination track with its previous clips untouched (startFrames NOT
recomputed, gaps preserved) and the moved clip appended with
`startFrame = max(startFrame + durationInFrames)` over the kept
destination clips, or 0 when the destination is empty. -/
theorem cross_track_move_positional (activeId overId : String)
    (tracks : List Track) (sourceTrack targetTrack : Track) (clip : Clip)
    (hN : (tracks.map Track.id).Nodup)
    (hS : tracks.find? (fun t => t.clips.any (fun c => c.id = activeId))
      = some sourceTrack)
    (hc : sourceTrack.clips.find? (fun c => c.id = activeId) = some clip)
    (hT : tracks.find? (fun t => t.id = overId) = some targetTrack)
    (hcompat : targetTrack.type = some (clipTypeForMatching clip.type))
    (hne : sourceTrack.id ≠ targetTrack.id) :
    ∃ j : ℕ, ∃ hj : j < (moveClipToTrack activeId overId tracks).length,
      (moveClipToTrack activeId overId tracks).get ⟨j, hj⟩
        = { targetTrack with
            clips := keptClips activeId targetTrack
              ++ [{ clip with
                    startFrame :=
                      some (positionalDropFrame activeId targetTrack) }] } ∧
      (keptClips activeId targetTrack = [] →
        positionalDropFrame activeId targetTrack = 0) ∧
      (keptClips activeId targetTrack ≠ [] →
        (∀ c ∈ keptClips activeId targetTrack,
          clipEnd c ≤ positionalDropFrame activeId targetTrack) ∧
        positionalDropFrame activeId targetTrack
          ∈ (keptClips activeId targetTrack).map clipEnd) := by
  have hmemS := List.mem_of_find?_eq_some hS
  have hmemT := List.mem_of_find?_eq_some hT
  obtain ⟨sIdx, hsIdx⟩ := findIdx?_isSome_of_mem
    (fun t => t.id = sourceTrack.id) tracks sourceTrack hmemS (by simp)
  obtain ⟨hsLt, hsP⟩ := findIdx?_some_facts _ tracks sIdx hsIdx
  have hsGet : tracks.get ⟨sIdx, hsLt⟩ = sourceTrack :=
    get_eq_of_nodup_ids tracks hN sourceTrack hmemS sIdx hsLt
      (by simpa using hsP)
  have hsGetE : tracks.get ⟨sIdx, hsLt⟩ = sourceTrack := hsGet
  rw [List.get_eq_getElem] at hsGetE
  have hsget? : tracks.get? sIdx = some sourceTrack := by
    rw [List.get?_eq_getElem?, List.getElem?_eq_getElem hsLt, hsGetE]
  have hidsEq : (tracks.set sIdx
      { sourceTrack with
        clips := sourceTrack.clips.filter (fun c => ¬ c.id = activeId) }).map
        Track.id
      = tracks.map Track.id :=
    map_id_set tracks sIdx hsLt _ (by rw [hsGet])
  obtain ⟨tIdx0, htIdx0⟩ := findIdx?_isSome_of_mem
    (fun t => t.id = targetTrack.id) tracks targetTrack hmemT (by simp)
  obtain ⟨htLt, htP⟩ := findIdx?_some_facts _ tracks tIdx0 htIdx0
  have htGet : tracks.get ⟨tIdx0, htLt⟩ = targetTrack :=
    get_eq_of_nodup_ids tracks hN targetTrack hmemT tIdx0 htLt
      (by simpa using htP)
  have hstep1Find : (tracks.set sIdx
      { sourceTrack with
        clips := sourceTrack.clips.filter
          (fun c => ¬ c.id = activeId) }).findIdx?
        (fun t => t.id = targetTrack.id) = some tIdx0 := by
    rw [findIdx?_id_congr targetTrack.id _ tracks hidsEq]
    exact htIdx0
  have hIdxNe : sIdx ≠ tIdx0 := by
    intro h
    apply hne
    rw [← hsGet, ← htGet]
    subst h
    rfl
  have hstep1Lt : tIdx0 < (tracks.set sIdx
      { sourceTrack with
        clips := sourceTrack.clips.filter
          (fun c => ¬ c.id = activeId) }).length := by
    rw [List.length_set]
    exact htLt
  have htGetE : tracks.get ⟨tIdx0, htLt⟩ = targetTrack := htGet
  rw [List.get_eq_getElem] at htGetE
  have hstep1get? : (tracks.set sIdx
      { sourceTrack with
        clips := sourceTrack.clips.filter
          (fun c => ¬ c.id = activeId) }).get? tIdx0 = some targetTrack := by
    rw [List.get?_eq_getElem?, List.getElem?_eq_getElem hstep1Lt,
      List.getElem_set_ne hIdxNe, htGetE]
  have hmove : moveClipToTrack activeId overId tracks
      = (tracks.set sIdx
          { sourceTrack with
            clips := sourceTrack.clips.filter
              (fun c => ¬ c.id = activeId) }).set tIdx0
          { targetTrack with
            clips := keptClips activeId targetTrack
              ++ [{ clip with
                    startFrame :=
                      some (positionalDropFrame activeId targetTrack) }] } := by
    unfold moveClipToTrack
    simp only [hS, hc, hT, hcompat, hsIdx, hsget?, hstep1Find, hstep1get?,
      keptClips, positionalDropFrame, eq_self_iff_true, if_true]
  have hresLt : tIdx0 < (moveClipToTrack activeId overId tracks).length := by
    rw [hmove, List.length_set, List.length_set]
    exact htLt
  refine ⟨tIdx0, hresLt, ?_, ?_, ?_⟩
  · simp only [List.get_eq_getElem, hmove]
    apply List.getElem_set_self
  · intro h
    unfold positionalDropFrame
    rw [h]
    rfl
  · intro h
    have hmapne : (keptClips activeId targetTrack).map clipEnd ≠ [] := by
      simpa using h
    obtain ⟨hall, hmem⟩ := listMax_spec _ hmapne
    have hcond : ¬ ((keptClips activeId targetTrack).isEmpty = true) := by
      simpa [List.isEmpty_iff] using h
    unfold positionalDropFrame
    rw [if_neg hcond]
    refine ⟨?_, hmem⟩
    intro c hc
    exact hall (clipEnd c) (List.mem_map_of_mem clipEnd hc)

/-- Second demo video track holding only the 30-frame clip. -/
def demoTrack2 : Track :=
  { id := "video-track-2", clips := [demoClip30], name := some "Video 2",
    type := some ClipType.video }

/-- Witness for C2: moving the 60-frame clip from the first video track
onto the second appends it after the kept 30-frame clip. -/
theorem cross_track_move_positional_witness :
    ∃ j : ℕ, ∃ hj : j < (moveClipToTrack "demo-60" "video-track-2"
        [demoTrack, demoTrack2]).length,
      (moveClipToTrack "demo-60" "video-track-2"
          [demoTrack, demoTrack2]).get ⟨j, hj⟩
        = { demoTrack2 with
            clips := keptClips "demo-60" demoTrack2
              ++ [{ demoClip60 with
                    startFrame :=
                      some (positionalDropFrame "demo-60" demoTrack2) }] } ∧
      (keptClips "demo-60" demoTrack2 = [] →
        positionalDropFrame "demo-60" demoTrack2 = 0) ∧
      (keptClips "demo-60" demoTrack2 ≠ [] →
        (∀ c ∈ keptClips "demo-60" demoTrack2,
          clipEnd c ≤ positionalDropFrame "demo-60" demoTrack2) ∧
        positionalDropFrame "demo-60" demoTrack2
          ∈ (keptClips "demo-60" demoTrack2).map clipEnd) :=
  cross_track_move_positional "demo-60" "video-track-2"
    [demoTrack, demoTrack2] demoTrack demoTrack2 demoClip60
    (by decide) rfl rfl rfl rfl (by decide)

/-- Compacted two-clip video track plus an empty video track: the start
state of the C1 counterexample. -/
def cexStart : List Track :=
  [{ id := "V1", clips := recalculateStartFrames [demoClip60, demoClip30],
     name := some "Video", type := some ClipType.video },
   { id := "V2", clips := [], name := some "Video 2",
     type := some ClipType.video }]

/-- State after moving clip "demo-60" to the empty track (leaving a gap on
V1) and then resizing "demo-60" — a compaction-mode operation that
recompacts only V2. -/
def cexAfterResize : List Track :=
  handleClipResize "demo-60" 80 none none
    (moveClipToTrack "demo-60" "V2" cexStart)

/-- C1 counterexample: after the compaction-mode operation
`handleClipResize` (duration resize) on clip "demo-60", track V1 — made
gappy by the preceding cross-track move and untouched by the resize —
still has its first clip at `startFrame = 60 ≠ 0`, so "for every track"
the compaction invariant does NOT hold. -/
theorem compaction_counterexample :
    cexAfterResize.get? 0
      = some { id := "V1",
               clips := [{ demoClip30 with startFrame := some 60 }],
               name := some "Video", type := some ClipType.video } ∧
    ¬ compacted [{ demoClip30 with startFrame := some 60 }] := by
  constructor
  · rfl
  · intro h
    have := h 0 (by simp)
    simp [demoClip30, sumDurations] at this

/-- C1 amended: every compaction-mode operation (insert-from-library,
reorder-within-track, delete, duration resize) recompacts exactly the
tracks it modifies through `recalculateStartFrames`, whose output always
satisfies `c0.startFrame = 0` and
`ci.startFrame = Σ_{j<i} cj.durationInFrames`: every output track is an
untouched input track, a recompacted (hence compaction-invariant) track,
or — for insert only — a freshly created track holding exactly the
inserted clip.  Tracks not touched by the operation may keep gaps left by
earlier positional (cross-track) moves. -/
theorem compaction_after_operations :
    (∀ clips : List Clip, compacted (recalculateStartFrames clips)) ∧
    (∀ (newId newTrackId : String) (clip : Clip) (tid : Option String)
        (tracks : List Track),
      ∀ t' ∈ addClipToTimeline newId newTrackId clip tid tracks,
        t' ∈ tracks ∨ compacted t'.clips
          ∨ t'.clips = [clipToAdd newId clip]) ∧
    (∀ (trackId : String) (oldIdx newIdx : ℕ) (tracks : List Track),
      ∀ t' ∈ reorderClipsInTrack trackId oldIdx newIdx tracks,
        t' ∈ tracks ∨ compacted t'.clips) ∧
    (∀ (clipId : String) (tracks : List Track),
      ∀ t' ∈ deleteClip clipId tracks,
        t' ∈ tracks ∨ compacted t'.clips) ∧
    (∀ (clipId : String) (newDur : ℤ) (nsx nsy : Option ℚ)
        (tracks : List Track),
      ∀ t' ∈ handleClipResize clipId newDur nsx nsy tracks,
        t' ∈ tracks ∨ compacted t'.clips) := by
  refine ⟨compacted_recalculateStartFrames, ?_, ?_, ?_, ?_⟩
  · intro newId newTrackId clip tid tracks t' ht'
    rcases tid with _ | tid
    · simp only [addClipToTimeline] at ht'
      cases hfind : tracks.find?
          (fun t => t.type = some (clipTypeForMatching clip.type)) with
      | some m =>
          simp only [hfind] at ht'
          obtain ⟨t₀, ht₀, hf⟩ := List.mem_map.mp ht'
          by_cases h : t₀.id = m.id
          · refine Or.inr (Or.inl ?_)
            rw [← hf, if_pos h]
            exact compacted_recalculateStartFrames _
          · refine Or.inl ?_
            rw [← hf, if_neg h]
            exact ht₀
      | none =>
          simp only [hfind] at ht'
          rcases List.mem_append.mp ht' with h | h
          · exact Or.inl h
          · refine Or.inr (Or.inr ?_)
            have ht'eq := List.mem_singleton.mp h
            rw [ht'eq]
    · simp only [addClipToTimeline] at ht'
      obtain ⟨t₀, ht₀, hf⟩ := List.mem_map.mp ht'
      by_cases h : t₀.id = tid
      · refine Or.inr (Or.inl ?_)
        rw [← hf, if_pos h]
        exact compacted_recalculateStartFrames _
      · refine Or.inl ?_
        rw [← hf, if_neg h]
        exact ht₀
  · intro trackId oldIdx newIdx tracks t' ht'
    simp only [reorderClipsInTrack] at ht'
    obtain ⟨t₀, ht₀, hf⟩ := List.mem_map.mp ht'
    by_cases h : t₀.id = trackId
    · refine Or.inr ?_
      rw [← hf, if_pos h]
      exact compacted_recalculateStartFrames _
    · refine Or.inl ?_
      rw [← hf, if_neg h]
      exact ht₀
  · intro clipId tracks t' ht'
    simp only [deleteClip] at ht'
    obtain ⟨t₀, ht₀, hf⟩ := List.mem_map.mp ht'
    by_cases h : t₀.clips.any (fun c => c.id = clipId) = true
    · refine Or.inr ?_
      rw [← hf, if_pos h]
      exact compacted_recalculateStartFrames _
    · refine Or.inl ?_
      rw [← hf, if_neg h]
      exact ht₀
  · intro clipId newDur nsx nsy tracks t' ht'
    simp only [handleClipResize] at ht'
    obtain ⟨t₀, ht₀, hf⟩ := List.mem_map.mp ht'
    unfold resizeClipInTrack at hf
    cases hfind : t₀.clips.findIdx? (fun c => c.id = clipId) with
    | none =>
        simp only [hfind] at hf
        refine Or.inl ?_
        rw [← hf]
        exact ht₀
    | some i =>
        simp only [hfind] at hf
        cases hget : t₀.clips.get? i with
        | none =>
            simp only [hget] at hf
            refine Or.inl ?_
            rw [← hf]
            exact ht₀
        | some old =>
            simp only [hget] at hf
            refine Or.inr ?_
            rw [← hf]
            exact compacted_recalculateStartFrames _

/-- Witness for the amended C1: the compaction engine on two concrete
clips, and a concrete resize whose touched track is recompacted. -/
theorem compaction_after_operations_witness :
    compacted (recalculateStartFrames [demoClip60, demoClip30]) ∧
    (resizeClipInTrack "demo-60" 10 none none demoTrack ∈ [demoTrack] ∨
      compacted (resizeClipInTrack "demo-60" 10 none none demoTrack).clips) :=
  ⟨compaction_after_operations.1 [demoClip60, demoClip30],
   compaction_after_operations.2.2.2.2 "demo-60" 10 none none [demoTrack]
     (resizeClipInTrack "demo-60" 10 none none demoTrack)
     (List.mem_map_of_mem _ (by simp))⟩

end Remotion
